import Mathlib

/-!
# bw_converter: a verification development

A shallow embedding of `src/bw_converter.cpp`.

* `std::string` is a list of characters (`Str`).
* `size_t` is 64 bits wide; the one place where its arithmetic can wrap
  (`modTime.size() - 1` in `main`) is written with an explicit `% 2 ^ 64`.
* `std::string::npos` as the "not found" result of `find_last_of` and as the
  defaulted count of `substr` is `none`.
* A thrown `std::out_of_range` is `none` in the result of `substr`.
* `std::ctime` may yield a null pointer (`none`); building a `std::string` from it
  throws `std::logic_error`, which is `none` in the result of `getFileTime`.
* An exception that nothing catches ends the run with `Status.terminate`; what the
  language runtime prints then is not part of the program's output.
* The file system, the image codec, the text rasteriser and the C library clock
  formatting are external to the program: they are the fields of `World`.
* `double` values are exact rationals: the only values that arise are `-1` and
  `st_size / 1024.0`, and a division by 1024 is exact in binary floating point.
-/

namespace BwConverter

/-- A `std::string`: the sequence of its `char`s. -/
abbrev Str := List Char

/-- The number of values of `size_t`. -/
def SIZE_T_MOD : Nat := 2 ^ 64

/-- The call `s.find_last_of(chars)`: the largest index whose character occurs in
`chars`, or `none` (the value `npos`) when there is no such index. -/
def find_last_of (s : Str) (chars : Str) : Option Nat :=
  match s with
  | [] => none
  | c :: rest =>
    match find_last_of rest chars with
    | some i => some (i + 1)
    | none => if chars.contains c then some 0 else none

/-- The call `s.substr(pos, count)`; `count = none` is the defaulted `npos`.
Throws (`none`) when `pos > s.size()`, otherwise yields the characters
`[pos, pos + min(count, size - pos))`. -/
def substr (s : Str) (pos : Nat) (count : Option Nat) : Option Str :=
  if pos > s.length then none
  else
    match count with
    | none => some (s.drop pos)
    | some n => some ((s.drop pos).take (min n (s.length - pos)))

/-- The literal `"_bw"`. -/
def bwSuffix : Str := ['_', 'b', 'w']

/-- The function `generateOutputFileName` (lines 14-20). `none` is an exception
escaping from `substr`. -/
def generateOutputFileName (inputFile : Str) : Option Str :=
  match find_last_of inputFile ['.'] with
  | none => some (inputFile ++ bwSuffix)
  | some dotPos =>
    match substr inputFile 0 (some dotPos), substr inputFile dotPos none with
    | some stem, some ext => some (stem ++ bwSuffix ++ ext)
    | _, _ => none

/-! ## Library values and the outside world -/

/-- The call `std::to_string(int)`: decimal digits, with a leading minus sign for a
negative value. -/
def to_string (n : Int) : Str :=
  match n with
  | Int.ofNat m => Nat.toDigits 10 m
  | Int.negSucc m => '-' :: Nat.toDigits 10 (m + 1)

/-- Smallest value of `int`. -/
def INT_MIN : Int := -2147483648

/-- Largest value of `int`. -/
def INT_MAX : Int := 2147483647

/-- Conversion of a `size_t` to `int` (in `cv::Point(10, 30 + i * lineHeight)`):
reduction modulo `2 ^ 32` into the signed range. -/
def size_t_to_int (n : Nat) : Int :=
  if n % 2 ^ 32 < 2 ^ 31 then (n % 2 ^ 32 : Nat) else (n % 2 ^ 32 : Nat) - 2 ^ 32

/-- A `double` rounded toward zero, the value of a `double` to `int` conversion
that fits. -/
def truncate (x : ℚ) : Int :=
  if 0 ≤ x then ⌊x⌋ else ⌈x⌉

/-- The fields of `struct stat` that the program reads. -/
structure StatBuf where
  st_size : Int
  st_mtime : Int
deriving DecidableEq

/-- A three-channel 8-bit pixel, in the channel order of `cv::Mat` (blue, green, red). -/
structure BGR where
  b : Nat
  g : Nat
  r : Nat
deriving DecidableEq

/-- A `cv::Scalar` colour (the three channels that are used). -/
structure Scalar where
  v0 : Nat
  v1 : Nat
  v2 : Nat
deriving DecidableEq

/-- A `cv::Point`. -/
structure Point where
  x : Int
  y : Int
deriving DecidableEq

/-- A `cv::Size`. -/
structure Size where
  width : Int
  height : Int
deriving DecidableEq

/-- A `cv::Mat` with elements of type `α`: its dimensions and its elements in row-major
order. -/
structure Mat (α : Type) where
  rows : Int
  cols : Int
  data : List α
deriving DecidableEq

/-- The method `cv::Mat::empty()`: no element, or no data. -/
def Mat.empty {α : Type} (m : Mat α) : Bool :=
  decide (m.rows * m.cols = 0) || m.data.isEmpty

/-- The arguments of one `cv::putText` call. -/
structure DrawText where
  text : Str
  org : Point
  fontFace : Int
  fontScale : ℚ
  color : Scalar
  thickness : Int
  lineType : Int
deriving DecidableEq

/-- The constant `cv::FONT_HERSHEY_SIMPLEX`. -/
def FONT_HERSHEY_SIMPLEX : Int := 0

/-- The constant `cv::LINE_AA`. -/
def LINE_AA : Int := 16

/-- Everything the program reaches outside itself. -/
structure World where
  /-- Result of `std::ifstream file(filename); file.good()`. -/
  ifstreamGood : Str → Bool
  /-- Result of `stat(filename, &buf)`: the buffer on return value 0, `none` otherwise. -/
  stat : Str → Option StatBuf
  /-- Result of `std::ctime(&t)`: the text, or `none` for the null pointer that it
  yields when the time has no calendar form (the year does not fit in `int`). -/
  ctime : Int → Option Str
  /-- Result of `cv::imread(filename)`. -/
  imread : Str → Mat BGR
  /-- Result of `cv::imwrite(filename, image)`. -/
  imwrite : Str → Mat BGR → Bool
  /-- Luminance that `cv::cvtColor(_, _, COLOR_BGR2GRAY)` computes for one pixel. -/
  luminance : BGR → Nat
  /-- Pixels of the image after `cv::putText` rendered one text on it. -/
  rasterise : Mat BGR → DrawText → List BGR
  /-- Result of `cv::getTextSize(text, fontFace, fontScale, thickness, nullptr)`. -/
  getTextSize : Str → Int → ℚ → Int → Size
  /-- Value that this platform yields for a `double` to `int` conversion whose
  truncated value does not fit in `int`. -/
  castOutOfRange : ℚ → Int

/-- The conversion `static_cast<int>(x)` of a `double`. -/
def static_cast_int (w : World) (x : ℚ) : Int :=
  if INT_MIN ≤ truncate x ∧ truncate x ≤ INT_MAX then truncate x else w.castOutOfRange x

/-- Modelled from the spec: `cv::cvtColor` with `COLOR_BGR2GRAY` belongs to the image
library, which is not part of the sources; per pixel it yields one luminance channel and
it keeps the dimensions. -/
def cvtColor_BGR2GRAY (w : World) (src : Mat BGR) : Mat Nat :=
  { rows := src.rows, cols := src.cols, data := src.data.map w.luminance }

/-- Modelled from the spec: `cv::cvtColor` with `COLOR_GRAY2BGR` belongs to the image
library, which is not part of the sources; it replicates the single channel into three
identical channels and keeps the dimensions. -/
def cvtColor_GRAY2BGR (src : Mat Nat) : Mat BGR :=
  { rows := src.rows, cols := src.cols, data := src.data.map fun y => ⟨y, y, y⟩ }

/-- Modelled from the spec: `cv::putText` belongs to the image library, which is not part
of the sources; it mutates the buffer in place, so the pixels change (as the world's
rasteriser says) and the dimensions stay. -/
def putText (w : World) (image : Mat BGR) (d : DrawText) : Mat BGR :=
  { image with data := w.rasterise image d }

/-! ## The functions of `bw_converter.cpp` -/

/-- The function `fileExists` (lines 8-11). -/
def fileExists (w : World) (filename : Str) : Bool :=
  w.ifstreamGood filename

/-- The function `getFileSizeKB` (lines 23-29). -/
def getFileSizeKB (w : World) (filename : Str) : ℚ :=
  match w.stat filename with
  | some stat_buf => (stat_buf.st_size : ℚ) / 1024
  | none => -1

/-- The function `getFileTime` (lines 32-38). Line 35 builds the returned `std::string`
from the pointer that `std::ctime` yields, without a null check: on a null pointer the
constructor throws `std::logic_error`, and the result is `none`. -/
def getFileTime (w : World) (filename : Str) : Option Str :=
  match w.stat filename with
  | some attr =>
    match w.ctime attr.st_mtime with
    | some text => some text
    | none => none
  | none => some "Unavailable".toList

/-- The function `getGPSData` (lines 41-44); the file name is unused. -/
def getGPSData (_filename : Str) : Str :=
  "Location: Unavailable".toList

/-- Colour of the overlay lines, `cv::Scalar(255, 255, 255)`. -/
def overlayColor : Scalar := ⟨255, 255, 255⟩

/-- Colour of the watermark, `cv::Scalar(200, 200, 200)`. -/
def watermarkColor : Scalar := ⟨200, 200, 200⟩

/-- The watermark text. -/
def watermark : Str := "<azlanio>".toList

/-- The loop of `addTextOverlay` (lines 54-57), from index `i` on: each line is drawn at
`(10, 30 + i * lineHeight)`. Yields the image and the `putText` calls made. -/
def drawLines (w : World) (image : Mat BGR) (i : Nat) (lines : List Str) :
    Mat BGR × List DrawText :=
  match lines with
  | [] => (image, [])
  | line :: rest =>
    let d : DrawText :=
      { text := line, org := ⟨10, size_t_to_int ((30 + i * 20) % SIZE_T_MOD)⟩,
        fontFace := FONT_HERSHEY_SIMPLEX, fontScale := 0.6, color := overlayColor,
        thickness := 1, lineType := LINE_AA }
    let next := drawLines w (putText w image d) (i + 1) rest
    (next.1, d :: next.2)

/-- The position of the watermark (line 66). -/
def watermarkPos (image : Mat BGR) (textSize : Size) : Point :=
  ⟨image.cols - textSize.width - 10, image.rows - 10⟩

/-- The `putText` call that draws the watermark (lines 60-68). -/
def watermarkCall (w : World) (image : Mat BGR) : DrawText :=
  let textSize := w.getTextSize watermark FONT_HERSHEY_SIMPLEX 0.5 1
  { text := watermark, org := watermarkPos image textSize,
    fontFace := FONT_HERSHEY_SIMPLEX, fontScale := 0.5, color := watermarkColor,
    thickness := 1, lineType := LINE_AA }

/-- The function `addTextOverlay` (lines 47-69). Yields the image and the `putText`
calls made, in order. -/
def addTextOverlay (w : World) (image : Mat BGR) (lines : List Str) :
    Mat BGR × List DrawText :=
  let drawn := drawLines w image 0 lines
  let mark := watermarkCall w drawn.1
  (putText w drawn.1 mark, drawn.2 ++ [mark])

/-- First overlay line (line 106). -/
def resolutionLine (width height : Int) : Str :=
  "Resolution: ".toList ++ to_string width ++ "x".toList ++ to_string height

/-- Second overlay line (line 107). -/
def sizeLine (w : World) (sizeKB : ℚ) : Str :=
  "Size: ".toList ++ to_string (static_cast_int w sizeKB) ++ " KB".toList

/-- Third overlay line (line 108): `"Modified: " + modTime.substr(0, modTime.size() - 1)`,
the subtraction being one of `size_t`. -/
def modifiedLine (modTime : Str) : Option Str :=
  match substr modTime 0 (some ((modTime.length + SIZE_T_MOD - 1) % SIZE_T_MOD)) with
  | some trimmed => some ("Modified: ".toList ++ trimmed)
  | none => none

/-- The list `overlayLines` of `main` (lines 105-110). -/
def overlayLines (w : World) (width height : Int) (sizeKB : ℚ) (modTime gpsData : Str) :
    Option (List Str) :=
  match modifiedLine modTime with
  | some modified => some [resolutionLine width height, sizeLine w sizeKB, modified, gpsData]
  | none => none

/-- The call `std::getline(std::cin, inputFile)`: the characters up to the first newline. -/
def getline (cin : Str) : Str :=
  cin.takeWhile fun c => c != '\n'

/-- How a run ends: `return code` from `main`, or `std::terminate` after an exception
that nothing catches. -/
inductive Status where
  | exit (code : Int)
  | terminate
deriving DecidableEq

/-- A call that leaves the program. -/
inductive Call where
  | ifstream (filename : Str)
  | imread (filename : Str)
  | stat (filename : Str)
  | putText (d : DrawText)
  | imwrite (filename : Str) (image : Mat BGR)
deriving DecidableEq

/-- What one run of the program does. -/
structure Run where
  status : Status
  cout : Str
  cerr : Str
  calls : List Call

/-- The prompt (line 75). -/
def prompt : Str := "Enter input image filename (e.g., photo.jpg): ".toList

/-- The text written by `std::endl`. -/
def endl : Str := ['\n']

/-- Error message of a missing file (line 79). -/
def errNoFile (inputFile : Str) : Str :=
  "Error: File does not exist - ".toList ++ inputFile ++ endl

/-- Error message of a failed decode (line 86). -/
def errNoLoad (inputFile : Str) : Str :=
  "Error: Could not load image ".toList ++ inputFile ++ endl

/-- Error message of a failed encode (line 122). -/
def errNoSave (outputFile : Str) : Str :=
  "Error: Could not save image ".toList ++ outputFile ++ endl

/-- Success message (line 120). -/
def msgSaved (outputFile : Str) : Str :=
  "✅ Black & White image with overlay saved as: ".toList ++ outputFile ++ endl

/-- The buffer handed to `addTextOverlay`: grey, then three channels again
(lines 98-99 and 113). -/
def displayable (w : World) (colorImage : Mat BGR) : Mat BGR :=
  cvtColor_GRAY2BGR (cvtColor_BGR2GRAY w colorImage)

/-- Lines 90-116 of `main`: the output file name, the image to write and the `putText`
calls made; `none` is an exception. -/
def render (w : World) (inputFile : Str) (colorImage : Mat BGR) :
    Option (Str × Mat BGR × List DrawText) :=
  let width := colorImage.cols
  let height := colorImage.rows
  let sizeKB := getFileSizeKB w inputFile
  match getFileTime w inputFile with
  | none => none
  | some modTime =>
    let gpsData := getGPSData inputFile
    match generateOutputFileName inputFile with
    | none => none
    | some outputFile =>
      match overlayLines w width height sizeKB modTime gpsData with
      | none => none
      | some lines =>
        let drawn := addTextOverlay w (displayable w colorImage) lines
        some (outputFile, drawn.1, drawn.2)

/-- The function `main` (lines 71-127) on the standard input `cin`. -/
def main (w : World) (cin : Str) : Run :=
  let inputFile := getline cin
  if !fileExists w inputFile then
    { status := .exit 1, cout := prompt, cerr := errNoFile inputFile,
      calls := [.ifstream inputFile] }
  else
    let colorImage := w.imread inputFile
    if colorImage.empty then
      { status := .exit 1, cout := prompt, cerr := errNoLoad inputFile,
        calls := [.ifstream inputFile, .imread inputFile] }
    else
      match render w inputFile colorImage with
      | none =>
        { status := .terminate, cout := prompt, cerr := [],
          calls := [.ifstream inputFile, .imread inputFile, .stat inputFile,
            .stat inputFile] }
      | some (outputFile, bwImage, draws) =>
        let calls : List Call :=
          [.ifstream inputFile, .imread inputFile, .stat inputFile, .stat inputFile]
            ++ draws.map Call.putText ++ [.imwrite outputFile bwImage]
        if w.imwrite outputFile bwImage then
          { status := .exit 0, cout := prompt ++ msgSaved outputFile, cerr := [],
            calls := calls }
        else
          { status := .exit 1, cout := prompt, cerr := errNoSave outputFile,
            calls := calls }

/-- The texts of the `putText` calls of a run, in order. -/
def drawnTexts (r : Run) : List Str :=
  r.calls.filterMap fun c =>
    match c with
    | .putText d => some d.text
    | _ => none

/-! ## Sample worlds -/

/-- A decoded image of one pixel. -/
def onePixel : Mat BGR :=
  { rows := 1, cols := 1, data := [⟨10, 20, 30⟩] }

/-- A world in which every path opens or not as `good` says, `stat` yields `st` for
every path, every decode yields `onePixel` and every encode succeeds or not as
`writes` says. -/
def sampleWorld (good : Bool) (st : Option StatBuf) (writes : Bool) : World :=
  { ifstreamGood := fun _ => good
    stat := fun _ => st
    ctime := fun _ => some "Thu Jan  1 00:00:00 1970\n".toList
    imread := fun _ => onePixel
    imwrite := fun _ _ => writes
    luminance := fun p => (p.b + p.g + p.r) / 3
    rasterise := fun image _ => image.data
    getTextSize := fun _ _ _ _ => ⟨80, 11⟩
    castOutOfRange := fun _ => INT_MIN }

/-- A world in which the file opens, decodes and could be written, and `stat` reports a
modification time of `2 ^ 60` seconds, for which `std::ctime` yields a null pointer. -/
def nullTimeWorld : World :=
  { sampleWorld true (some ⟨2047, 2 ^ 60⟩) true with ctime := fun _ => none }

/-- The standard input that holds the line `photo.jpg`. -/
def samplePath : Str := "photo.jpg\n".toList

/-- Index `p` holds the last `'.'` of `s`. -/
def IsLastDot (s : Str) (p : Nat) : Prop :=
  s[p]? = some '.' ∧ ∀ j, p < j → s[j]? ≠ some '.'

/-! ## Lemmas on `find_last_of` and `substr` -/

theorem contains_iff {l : Str} {c : Char} : l.contains c = true ↔ c ∈ l := by
  simp

theorem find_last_of_none_iff (s chars : Str) :
    find_last_of s chars = none ↔ ∀ c ∈ s, c ∉ chars := by
  induction s with
  | nil => simp [find_last_of]
  | cons c rest ih =>
    unfold find_last_of
    cases h : find_last_of rest chars with
    | some i =>
      have hne : ¬ ∀ c ∈ rest, c ∉ chars := fun hall => by
        rw [ih.mpr hall] at h; cases h
      simp only [List.mem_cons, forall_eq_or_imp]
      constructor
      · intro h0; cases h0
      · intro hall; exact absurd hall.2 hne
    | none =>
      have hall := ih.mp h
      by_cases hc : chars.contains c = true
      · simp only [hc, if_true, List.mem_cons, forall_eq_or_imp]
        constructor
        · intro h0; cases h0
        · intro h0; exact absurd (contains_iff.mp hc) h0.1
      · simp only [hc, List.mem_cons, forall_eq_or_imp]
        constructor
        · intro _
          exact ⟨fun hm => hc (contains_iff.mpr hm), hall⟩
        · intro _; simp

theorem find_last_of_some_iff (s chars : Str) (p : Nat) :
    find_last_of s chars = some p ↔
      (∃ c, s[p]? = some c ∧ c ∈ chars) ∧ ∀ j c, p < j → s[j]? = some c → c ∉ chars := by
  induction s generalizing p with
  | nil => simp [find_last_of]
  | cons c rest ih =>
    unfold find_last_of
    cases h : find_last_of rest chars with
    | some i =>
      have hi := (ih i).mp h
      constructor
      · intro hp
        cases hp
        refine ⟨by simpa using hi.1, ?_⟩
        intro j d hj hd
        obtain ⟨k, rfl⟩ : ∃ k, j = k + 1 := ⟨j - 1, by omega⟩
        simp only [List.getElem?_cons_succ] at hd
        exact hi.2 k d (by omega) hd
      · rintro ⟨⟨d, hd, hdm⟩, hlast⟩
        cases p with
        | zero =>
          obtain ⟨e, he, hem⟩ := hi.1
          exact absurd hem (hlast (i + 1) e (by omega) (by simpa using he))
        | succ q =>
          simp only [List.getElem?_cons_succ] at hd
          have hq : find_last_of rest chars = some q := by
            refine (ih q).mpr ⟨⟨d, hd, hdm⟩, ?_⟩
            intro j e hj he
            exact hlast (j + 1) e (by omega) (by simpa using he)
          rw [h] at hq
          cases hq
          rfl
    | none =>
      have hall := (find_last_of_none_iff rest chars).mp h
      by_cases hc : chars.contains c = true
      · simp only [hc, if_true]
        constructor
        · intro hp
          cases hp
          refine ⟨⟨c, by simp, contains_iff.mp hc⟩, ?_⟩
          intro j d hj hd
          obtain ⟨k, rfl⟩ : ∃ k, j = k + 1 := ⟨j - 1, by omega⟩
          simp only [List.getElem?_cons_succ] at hd
          exact hall d (List.getElem?_mem hd)
        · rintro ⟨⟨d, hd, hdm⟩, _⟩
          cases p with
          | zero => rfl
          | succ q =>
            simp only [List.getElem?_cons_succ] at hd
            exact absurd hdm (hall d (List.getElem?_mem hd))
      · simp only [hc]
        constructor
        · intro hp; cases hp
        · rintro ⟨⟨d, hd, hdm⟩, _⟩
          cases p with
          | zero =>
            simp only [List.getElem?_cons_zero, Option.some.injEq] at hd
            subst hd
            exact absurd (contains_iff.mpr hdm) hc
          | succ q =>
            simp only [List.getElem?_cons_succ] at hd
            exact absurd hdm (hall d (List.getElem?_mem hd))

theorem find_last_dot_none_iff (s : Str) :
    find_last_of s ['.'] = none ↔ '.' ∉ s := by
  rw [find_last_of_none_iff]
  constructor
  · intro h hm
    exact h '.' hm (by simp)
  · intro h c hc hdot
    simp only [List.mem_singleton] at hdot
    subst hdot
    exact h hc

theorem find_last_dot_some_iff (s : Str) (p : Nat) :
    find_last_of s ['.'] = some p ↔ IsLastDot s p := by
  rw [find_last_of_some_iff]
  unfold IsLastDot
  constructor
  · rintro ⟨⟨c, hc, hm⟩, hlast⟩
    simp only [List.mem_singleton] at hm
    subst hm
    refine ⟨hc, ?_⟩
    intro j hj hdot
    exact hlast j '.' hj hdot (by simp)
  · rintro ⟨hp, hlast⟩
    refine ⟨⟨'.', hp, by simp⟩, ?_⟩
    intro j c hj hc hm
    simp only [List.mem_singleton] at hm
    subst hm
    exact hlast j hj hc

theorem IsLastDot.lt_length {s : Str} {p : Nat} (h : IsLastDot s p) : p < s.length := by
  obtain ⟨hlt, _⟩ := List.getElem?_eq_some.mp h.1
  exact hlt

theorem IsLastDot.mem {s : Str} {p : Nat} (h : IsLastDot s p) : '.' ∈ s :=
  List.getElem?_mem h.1

theorem substr_stem (s : Str) (p : Nat) (hp : p ≤ s.length) :
    substr s 0 (some p) = some (s.take p) := by
  simp [substr, Nat.min_eq_left hp]

theorem substr_ext (s : Str) (p : Nat) (hp : p ≤ s.length) :
    substr s p none = some (s.drop p) := by
  simp [substr, Nat.not_lt.mpr hp]

theorem generateOutputFileName_of_no_dot (s : Str) (h : '.' ∉ s) :
    generateOutputFileName s = some (s ++ bwSuffix) := by
  simp [generateOutputFileName, (find_last_dot_none_iff s).mpr h]

theorem generateOutputFileName_of_last_dot (s : Str) (p : Nat) (h : IsLastDot s p) :
    generateOutputFileName s = some (s.take p ++ bwSuffix ++ s.drop p) := by
  have hp : p ≤ s.length := Nat.le_of_lt h.lt_length
  simp [generateOutputFileName, (find_last_dot_some_iff s p).mpr h, substr_stem s p hp,
    substr_ext s p hp]

theorem last_dot_cases (s : Str) : '.' ∉ s ∨ ∃ p, IsLastDot s p := by
  cases h : find_last_of s ['.'] with
  | none => exact Or.inl ((find_last_dot_none_iff s).mp h)
  | some p => exact Or.inr ⟨p, (find_last_dot_some_iff s p).mp h⟩

theorem isLastDot_insert (s : Str) (p : Nat) (h : IsLastDot s p) :
    IsLastDot (s.take p ++ bwSuffix ++ s.drop p) (p + 3) := by
  have hp : p < s.length := h.lt_length
  have hlen : (s.take p ++ bwSuffix).length = p + 3 := by
    simp [bwSuffix, Nat.min_eq_left (Nat.le_of_lt hp)]
  constructor
  · rw [List.getElem?_append_right (by omega)]
    simpa [hlen] using h.1
  · intro j hj
    rw [List.getElem?_append_right (by omega), hlen, List.getElem?_drop]
    exact h.2 (p + (j - (p + 3))) (by omega)

theorem generateOutputFileName_isSome (s : Str) : ∃ out, generateOutputFileName s = some out := by
  rcases last_dot_cases s with hno | ⟨p, hp⟩
  · exact ⟨_, generateOutputFileName_of_no_dot s hno⟩
  · exact ⟨_, generateOutputFileName_of_last_dot s p hp⟩

theorem modifiedLine_isSome (modTime : Str) : ∃ line, modifiedLine modTime = some line := by
  simp [modifiedLine, substr]

theorem overlayLines_isSome (w : World) (width height : Int) (sizeKB : ℚ)
    (modTime gpsData : Str) :
    ∃ modified, modifiedLine modTime = some modified ∧
      overlayLines w width height sizeKB modTime gpsData =
        some [resolutionLine width height, sizeLine w sizeKB, modified, gpsData] := by
  obtain ⟨line, hline⟩ := modifiedLine_isSome modTime
  exact ⟨line, hline, by simp [overlayLines, hline]⟩

theorem render_eq (w : World) (inputFile modTime : Str) (colorImage : Mat BGR)
    (htime : getFileTime w inputFile = some modTime) :
    ∃ outputFile modified,
      generateOutputFileName inputFile = some outputFile ∧
      modifiedLine modTime = some modified ∧
      render w inputFile colorImage =
        some (outputFile,
          addTextOverlay w (displayable w colorImage)
            [resolutionLine colorImage.cols colorImage.rows,
              sizeLine w (getFileSizeKB w inputFile), modified, getGPSData inputFile]) := by
  obtain ⟨outputFile, hout⟩ := generateOutputFileName_isSome inputFile
  obtain ⟨modified, hmod, hlines⟩ :=
    overlayLines_isSome w colorImage.cols colorImage.rows (getFileSizeKB w inputFile)
      modTime (getGPSData inputFile)
  exact ⟨outputFile, modified, hout, hmod, by simp [render, htime, hout, hlines]⟩

theorem render_isSome (w : World) (inputFile modTime : Str) (colorImage : Mat BGR)
    (htime : getFileTime w inputFile = some modTime) :
    ∃ outputFile bwImage draws,
      generateOutputFileName inputFile = some outputFile ∧
      render w inputFile colorImage = some (outputFile, bwImage, draws) := by
  obtain ⟨outputFile, modified, hout, _, hr⟩ := render_eq w inputFile modTime colorImage htime
  exact ⟨outputFile, _, _, hout, hr⟩

theorem render_of_null_time (w : World) (inputFile : Str) (colorImage : Mat BGR)
    (htime : getFileTime w inputFile = none) : render w inputFile colorImage = none := by
  simp [render, htime]

theorem render_none_iff (w : World) (inputFile : Str) (colorImage : Mat BGR) :
    render w inputFile colorImage = none ↔ getFileTime w inputFile = none := by
  constructor
  · intro hr
    cases htime : getFileTime w inputFile with
    | none => rfl
    | some modTime =>
      obtain ⟨_, _, _, _, hsome⟩ := render_isSome w inputFile modTime colorImage htime
      rw [hr] at hsome
      cases hsome
  · exact render_of_null_time w inputFile colorImage

theorem main_of_missing (w : World) (cin : Str) (h : fileExists w (getline cin) = false) :
    main w cin =
      { status := .exit 1, cout := prompt, cerr := errNoFile (getline cin),
        calls := [.ifstream (getline cin)] } := by
  simp [main, h]

theorem main_of_undecoded (w : World) (cin : Str) (h : fileExists w (getline cin) = true)
    (he : (w.imread (getline cin)).empty = true) :
    main w cin =
      { status := .exit 1, cout := prompt, cerr := errNoLoad (getline cin),
        calls := [.ifstream (getline cin), .imread (getline cin)] } := by
  simp [main, h, he]

theorem main_of_rendered (w : World) (cin : Str) (h : fileExists w (getline cin) = true)
    (he : (w.imread (getline cin)).empty = false) (outputFile : Str) (bwImage : Mat BGR)
    (draws : List DrawText)
    (hr : render w (getline cin) (w.imread (getline cin)) = some (outputFile, bwImage, draws)) :
    main w cin =
      if w.imwrite outputFile bwImage then
        { status := .exit 0, cout := prompt ++ msgSaved outputFile, cerr := [],
          calls := [.ifstream (getline cin), .imread (getline cin), .stat (getline cin),
            .stat (getline cin)] ++ draws.map Call.putText ++ [.imwrite outputFile bwImage] }
      else
        { status := .exit 1, cout := prompt, cerr := errNoSave outputFile,
          calls := [.ifstream (getline cin), .imread (getline cin), .stat (getline cin),
            .stat (getline cin)] ++ draws.map Call.putText ++ [.imwrite outputFile bwImage] } := by
  simp [main, h, he, hr]

theorem main_of_aborted (w : World) (cin : Str) (h : fileExists w (getline cin) = true)
    (he : (w.imread (getline cin)).empty = false)
    (hr : render w (getline cin) (w.imread (getline cin)) = none) :
    main w cin =
      { status := .terminate, cout := prompt, cerr := [],
        calls := [.ifstream (getline cin), .imread (getline cin), .stat (getline cin),
          .stat (getline cin)] } := by
  simp [main, h, he, hr]

theorem drawLines_texts (w : World) (image : Mat BGR) (i : Nat) (lines : List Str) :
    (drawLines w image i lines).2.map DrawText.text = lines := by
  induction lines generalizing image i with
  | nil => rfl
  | cons line rest ih => simp [drawLines, ih]

theorem drawLines_dims (w : World) (image : Mat BGR) (i : Nat) (lines : List Str) :
    (drawLines w image i lines).1.rows = image.rows ∧
      (drawLines w image i lines).1.cols = image.cols := by
  induction lines generalizing image i with
  | nil => exact ⟨rfl, rfl⟩
  | cons line rest ih =>
    simp only [drawLines]
    exact ih (putText w image _) (i + 1)

theorem drawLines_color (w : World) (image : Mat BGR) (i : Nat) (lines : List Str) :
    ∀ d ∈ (drawLines w image i lines).2, d.color = overlayColor := by
  induction lines generalizing image i with
  | nil => simp [drawLines]
  | cons line rest ih =>
    intro d hd
    simp only [drawLines, List.mem_cons] at hd
    rcases hd with rfl | hd
    · rfl
    · exact ih _ _ d hd

theorem addTextOverlay_texts (w : World) (image : Mat BGR) (lines : List Str) :
    (addTextOverlay w image lines).2.map DrawText.text = lines ++ [watermark] := by
  simp [addTextOverlay, drawLines_texts, watermarkCall]

theorem filterMap_putText (draws : List DrawText) :
    (draws.map Call.putText).filterMap (fun c =>
        match c with
        | .putText d => some d.text
        | _ => none) = draws.map DrawText.text := by
  induction draws with
  | nil => rfl
  | cons d rest ih => simp [ih]

theorem drawnTexts_of_rendered (w : World) (cin : Str)
    (h : fileExists w (getline cin) = true) (he : (w.imread (getline cin)).empty = false)
    (outputFile : Str) (bwImage : Mat BGR) (draws : List DrawText)
    (hr : render w (getline cin) (w.imread (getline cin)) = some (outputFile, bwImage, draws)) :
    drawnTexts (main w cin) = draws.map DrawText.text := by
  rw [main_of_rendered w cin h he _ _ _ hr]
  cases w.imwrite outputFile bwImage <;>
    simp only [drawnTexts, List.cons_append, List.nil_append, List.filterMap_cons,
      List.filterMap_append, filterMap_putText, List.filterMap_nil, List.append_nil,
      if_true, if_false, Bool.false_eq_true]

theorem drawnTexts_main (w : World) (cin modTime : Str)
    (h : fileExists w (getline cin) = true)
    (he : (w.imread (getline cin)).empty = false)
    (htime : getFileTime w (getline cin) = some modTime) :
    ∃ modified, modifiedLine modTime = some modified ∧
      drawnTexts (main w cin) =
        [resolutionLine (w.imread (getline cin)).cols (w.imread (getline cin)).rows,
          sizeLine w (getFileSizeKB w (getline cin)), modified, getGPSData (getline cin),
          watermark] := by
  obtain ⟨outputFile, modified, _, hmod, hr⟩ :=
    render_eq w (getline cin) modTime (w.imread (getline cin)) htime
  refine ⟨modified, hmod, ?_⟩
  rw [drawnTexts_of_rendered w cin h he _ _ _ hr]
  exact addTextOverlay_texts w _ _

theorem modifiedLine_trim (t : Str) (c : Char) (hsize : (t ++ [c]).length < SIZE_T_MOD) :
    modifiedLine (t ++ [c]) = some ("Modified: ".toList ++ t) := by
  have hlen : (t ++ [c]).length = t.length + 1 := by simp
  rw [hlen] at hsize
  have hcount : ((t ++ [c]).length + SIZE_T_MOD - 1) % SIZE_T_MOD = t.length := by
    have : (t ++ [c]).length + SIZE_T_MOD - 1 = t.length + SIZE_T_MOD := by omega
    rw [this, Nat.add_mod_right]
    exact Nat.mod_eq_of_lt (by omega)
  have hmin : min t.length ((t ++ [c]).length - 0) = t.length := by omega
  have hpos : ¬ 0 > (t ++ [c]).length := by omega
  simp only [modifiedLine, substr, hpos, if_false, hcount, hmin, List.drop_zero]
  rw [List.take_left]

theorem truncate_neg_one : truncate (-1) = -1 := by
  have h : ¬ (0 : ℚ) ≤ -1 := by norm_num
  simp only [truncate, h, if_false]
  exact_mod_cast Int.ceil_intCast (-1 : ℤ)

theorem truncate_div_1024 (n : Int) (h : 0 ≤ n) : truncate ((n : ℚ) / 1024) = n / 1024 := by
  have hq : (0 : ℚ) ≤ (n : ℚ) / 1024 := by positivity
  simp only [truncate, hq, if_true]
  exact_mod_cast Rat.floor_intCast_div_natCast n 1024

theorem static_cast_int_neg_one (w : World) : static_cast_int w (-1) = -1 := by
  simp [static_cast_int, truncate_neg_one, INT_MIN, INT_MAX]

theorem static_cast_int_div_1024 (w : World) (n : Int) (h : 0 ≤ n) (hfit : n / 1024 ≤ INT_MAX) :
    static_cast_int w ((n : ℚ) / 1024) = n / 1024 := by
  have hlo : INT_MIN ≤ n / 1024 := by
    have : 0 ≤ n / 1024 := Int.ediv_nonneg h (by norm_num)
    unfold INT_MIN
    omega
  simp [static_cast_int, truncate_div_1024 n h, hlo, hfit]

theorem modifiedLine_unavailable :
    modifiedLine "Unavailable".toList = some "Modified: Unavailabl".toList := by
  decide

theorem sizeLine_of_stat_failure (w : World) (filename : Str) (h : w.stat filename = none) :
    sizeLine w (getFileSizeKB w filename) = "Size: -1 KB".toList := by
  simp only [sizeLine, getFileSizeKB, h, static_cast_int_neg_one]
  decide

theorem sizeLine_of_stat (w : World) (filename : Str) (st : StatBuf)
    (hstat : w.stat filename = some st) (h0 : 0 ≤ st.st_size)
    (hfit : st.st_size / 1024 ≤ INT_MAX) :
    sizeLine w (getFileSizeKB w filename) =
      "Size: ".toList ++ to_string (st.st_size / 1024) ++ " KB".toList := by
  simp only [sizeLine, getFileSizeKB, hstat, static_cast_int_div_1024 w st.st_size h0 hfit]

theorem addTextOverlay_getLast (w : World) (image : Mat BGR) (lines : List Str) :
    (addTextOverlay w image lines).2.getLast? =
      some (watermarkCall w (drawLines w image 0 lines).1) := by
  simp [addTextOverlay]

/-! ## The derived file name -/

/-- C1: for every input path `s`, `generateOutputFileName s` returns (no exception), and
its value is `s` followed by `"_bw"` when `s` has no `'.'`, and otherwise, with `p` the
index of the last `'.'`, the first `p` characters of `s`, then `"_bw"`, then `s` from
index `p` on; `"photo.jpg"` gives `"photo_bw.jpg"` and `"image"` gives `"image_bw"`. -/
theorem generateOutputFileName_spec (s : Str) :
    ('.' ∉ s → generateOutputFileName s = some (s ++ ['_', 'b', 'w'])) ∧
    (∀ p, IsLastDot s p →
      generateOutputFileName s = some (s.take p ++ ['_', 'b', 'w'] ++ s.drop p)) ∧
    generateOutputFileName "photo.jpg".toList = some "photo_bw.jpg".toList ∧
    generateOutputFileName "image".toList = some "image_bw".toList :=
  ⟨generateOutputFileName_of_no_dot s, generateOutputFileName_of_last_dot s,
    by decide, by decide⟩

/-- C1, at the path `a.b.c`, whose last dot is at index 3, and at the dotless `ab`. -/
theorem generateOutputFileName_spec_witness :
    generateOutputFileName "ab".toList = some "ab_bw".toList ∧
    generateOutputFileName "a.b.c".toList = some "a.b_bw.c".toList :=
  ⟨(generateOutputFileName_spec "ab".toList).1 (by decide),
    (generateOutputFileName_spec "a.b.c".toList).2.1 3
      ⟨by decide, fun j hj => by
        obtain ⟨k, rfl⟩ : ∃ k, j = k + 4 := ⟨j - 4, by omega⟩
        cases k <;> simp⟩⟩

/-- C10: when `s` has a `'.'`, last at index `p`, the derived name has its last `'.'` at
index `p + 3` and from there on it equals `s` from `p` on (the extension is kept); when
`s` has no `'.'`, the derived name has none either. -/
theorem generateOutputFileName_extension (s : Str) :
    (∀ p, IsLastDot s p →
      ∃ out, generateOutputFileName s = some out ∧ IsLastDot out (p + 3) ∧
        out.drop (p + 3) = s.drop p) ∧
    ('.' ∉ s → ∃ out, generateOutputFileName s = some out ∧ '.' ∉ out) := by
  constructor
  · intro p hp
    refine ⟨_, generateOutputFileName_of_last_dot s p hp, isLastDot_insert s p hp, ?_⟩
    have hlen : (s.take p ++ bwSuffix).length = p + 3 := by
      simp [bwSuffix, Nat.min_eq_left (Nat.le_of_lt hp.lt_length)]
    rw [← hlen, List.drop_left]
  · intro hno
    refine ⟨_, generateOutputFileName_of_no_dot s hno, ?_⟩
    simp [bwSuffix, hno]

/-- C10, at the path `a.b.c` (last dot at index 3) and at the dotless `ab`. -/
theorem generateOutputFileName_extension_witness :
    (∃ out, generateOutputFileName "a.b.c".toList = some out ∧ IsLastDot out 6 ∧
        out.drop 6 = [ '.', 'c']) ∧
    (∃ out, generateOutputFileName "ab".toList = some out ∧ '.' ∉ out) :=
  ⟨(generateOutputFileName_extension "a.b.c".toList).1 3
      ⟨by decide, fun j hj => by
        obtain ⟨k, rfl⟩ : ∃ k, j = k + 4 := ⟨j - 4, by omega⟩
        cases k <;> simp⟩,
    (generateOutputFileName_extension "ab".toList).2 (by decide)⟩

/-- C2: for every input path for which `fileExists` returns false, `main` returns 1,
standard error holds the message `Error: File does not exist - ` followed by exactly that
path and a newline, standard output holds the prompt only, and neither the image writer
nor the decoder is called. -/
theorem main_missing_file (w : World) (cin : Str) (h : fileExists w (getline cin) = false) :
    (main w cin).status = .exit 1 ∧
    (main w cin).cerr = "Error: File does not exist - ".toList ++ getline cin ++ ['\n'] ∧
    (main w cin).cout = prompt ∧
    (∀ f img, Call.imwrite f img ∉ (main w cin).calls) ∧
    (∀ f, Call.imread f ∉ (main w cin).calls) := by
  rw [main_of_missing w cin h]
  simp [errNoFile, endl]

/-- Whenever `getFileTime` returns a text, `main` returns, with status 0 or 1; the status
is 0 exactly when the input file exists, the decoded image is not empty and writing the
rendered image to the derived output path succeeds; the report on standard error is that
of the first failing step, and nothing is reported on success. -/
theorem main_status_of_time (w : World) (cin modTime : Str)
    (htime : getFileTime w (getline cin) = some modTime) :
    ∃ outputFile bwImage draws,
      generateOutputFileName (getline cin) = some outputFile ∧
      render w (getline cin) (w.imread (getline cin)) = some (outputFile, bwImage, draws) ∧
      ((main w cin).status = .exit 0 ↔
        fileExists w (getline cin) = true ∧ (w.imread (getline cin)).empty = false ∧
          w.imwrite outputFile bwImage = true) ∧
      ((main w cin).status = .exit 0 ∨ (main w cin).status = .exit 1) ∧
      (fileExists w (getline cin) = false →
        (main w cin).cerr = "Error: File does not exist - ".toList ++ getline cin ++ ['\n']) ∧
      (fileExists w (getline cin) = true → (w.imread (getline cin)).empty = true →
        (main w cin).cerr = "Error: Could not load image ".toList ++ getline cin ++ ['\n']) ∧
      (fileExists w (getline cin) = true → (w.imread (getline cin)).empty = false →
        w.imwrite outputFile bwImage = false →
        (main w cin).cerr = "Error: Could not save image ".toList ++ outputFile ++ ['\n']) ∧
      (fileExists w (getline cin) = true → (w.imread (getline cin)).empty = false →
        w.imwrite outputFile bwImage = true → (main w cin).cerr = []) := by
  obtain ⟨outputFile, bwImage, draws, hout, hr⟩ :=
    render_isSome w (getline cin) modTime (w.imread (getline cin)) htime
  refine ⟨outputFile, bwImage, draws, hout, hr, ?_⟩
  cases hex : fileExists w (getline cin) with
  | false =>
    rw [main_of_missing w cin hex]
    simp [errNoFile, endl]
  | true =>
    cases he : (w.imread (getline cin)).empty with
    | true =>
      rw [main_of_undecoded w cin hex he]
      simp [errNoLoad, endl]
    | false =>
      rw [main_of_rendered w cin hex he _ _ _ hr]
      cases hw : w.imwrite outputFile bwImage <;> simp [errNoSave, endl]

/-- C3 (the code departs from it): in a world where the file opens, decodes to a
non-empty image and every write would succeed, but `stat` reports a modification time
for which `std::ctime` yields a null pointer, line 35 throws and the run ends by
`std::terminate`: the status is neither 0 nor 1, none of the three error messages is
written and the image writer is never called. -/
theorem main_null_ctime_terminates :
    fileExists nullTimeWorld (getline samplePath) = true ∧
    (nullTimeWorld.imread (getline samplePath)).empty = false ∧
    (∀ f img, nullTimeWorld.imwrite f img = true) ∧
    nullTimeWorld.stat (getline samplePath) = some ⟨2047, 2 ^ 60⟩ ∧
    nullTimeWorld.ctime (2 ^ 60) = none ∧
    (main nullTimeWorld samplePath).status = .terminate ∧
    (main nullTimeWorld samplePath).status ≠ .exit 0 ∧
    (main nullTimeWorld samplePath).status ≠ .exit 1 ∧
    (main nullTimeWorld samplePath).cerr = [] ∧
    (∀ f img, Call.imwrite f img ∉ (main nullTimeWorld samplePath).calls) := by
  have hmain := main_of_aborted nullTimeWorld samplePath rfl (by decide)
    (render_of_null_time nullTimeWorld _ _ rfl)
  refine ⟨rfl, by decide, fun _ _ => rfl, rfl, rfl, ?_, ?_, ?_, ?_, ?_⟩ <;>
    rw [hmain] <;> simp

/-- C2, in a world where no path opens, on the input line `photo.jpg`. -/
theorem main_missing_file_witness :
    fileExists (sampleWorld false none true) (getline samplePath) = false ∧
    (main (sampleWorld false none true) samplePath).status = .exit 1 ∧
    (main (sampleWorld false none true) samplePath).cerr =
      "Error: File does not exist - ".toList ++ getline samplePath ++ ['\n'] ∧
    (main (sampleWorld false none true) samplePath).cout = prompt ∧
    (∀ f img, Call.imwrite f img ∉ (main (sampleWorld false none true) samplePath).calls) ∧
    (∀ f, Call.imread f ∉ (main (sampleWorld false none true) samplePath).calls) :=
  ⟨rfl, main_missing_file (sampleWorld false none true) samplePath rfl⟩

/-- C4 (the code departs from it): in a world where the file opens and decodes and `stat`
fails, the run ends with status 0 and the size line is `Size: -1 KB`, but the third line
drawn is `Modified: Unavailabl`: line 108 removes the last character of the sentinel
`Unavailable` as it does of a `ctime` text. -/
theorem stat_failure_overlay :
    (main (sampleWorld true none true) samplePath).status = .exit 0 ∧
    drawnTexts (main (sampleWorld true none true) samplePath) =
      ["Resolution: 1x1".toList, "Size: -1 KB".toList, "Modified: Unavailabl".toList,
        "Location: Unavailable".toList, "<azlanio>".toList] ∧
    "Modified: Unavailabl".toList ≠ "Modified: Unavailable".toList := by
  refine ⟨?_, ?_, by decide⟩
  · obtain ⟨outputFile, bwImage, draws, _, hr⟩ :=
      render_isSome (sampleWorld true none true) (getline samplePath) "Unavailable".toList
        ((sampleWorld true none true).imread (getline samplePath)) rfl
    rw [main_of_rendered (sampleWorld true none true) samplePath rfl (by decide) _ _ _ hr]
    rfl
  · obtain ⟨modified, hmod, htexts⟩ :=
      drawnTexts_main (sampleWorld true none true) samplePath "Unavailable".toList rfl
        (by decide) rfl
    have hm : modified = "Modified: Unavailabl".toList :=
      Option.some.inj (hmod.symm.trans modifiedLine_unavailable)
    rw [htexts, hm, sizeLine_of_stat_failure _ _ rfl]
    decide

/-- C5: for every width, height, size value and modification-time text `t` followed by a
newline (of a length that `size_t` holds), the overlay list has exactly four lines, in
this order: `Resolution: ` then the decimal width, `x`, the decimal height; `Size: ` then
the converted size and ` KB`; `Modified: ` then `t` (the one trailing newline removed,
nothing else changed); and `Location: Unavailable`, whatever the file name. In a run of
`main` that reaches the drawing, these four lines and then the watermark are the texts
drawn. -/
theorem overlayLines_spec (w : World) (width height : Int) (sizeKB : ℚ) (t filename : Str)
    (hsize : (t ++ ['\n']).length < SIZE_T_MOD) :
    overlayLines w width height sizeKB (t ++ ['\n']) (getGPSData filename) =
      some ["Resolution: ".toList ++ to_string width ++ "x".toList ++ to_string height,
        "Size: ".toList ++ to_string (static_cast_int w sizeKB) ++ " KB".toList,
        "Modified: ".toList ++ t,
        "Location: Unavailable".toList] ∧
    (∀ cin, fileExists w (getline cin) = true → (w.imread (getline cin)).empty = false →
      (w.imread (getline cin)).cols = width → (w.imread (getline cin)).rows = height →
      getFileSizeKB w (getline cin) = sizeKB → getFileTime w (getline cin) = some (t ++ ['\n']) →
      drawnTexts (main w cin) =
        ["Resolution: ".toList ++ to_string width ++ "x".toList ++ to_string height,
          "Size: ".toList ++ to_string (static_cast_int w sizeKB) ++ " KB".toList,
          "Modified: ".toList ++ t,
          "Location: Unavailable".toList,
          "<azlanio>".toList]) := by
  have hmod := modifiedLine_trim t '\n' hsize
  constructor
  · simp only [overlayLines, hmod]
    rfl
  · intro cin hex he hcols hrows hkb htime
    obtain ⟨modified, hmod2, htexts⟩ := drawnTexts_main w cin (t ++ ['\n']) hex he htime
    rw [hmod] at hmod2
    rw [htexts, ← Option.some.inj hmod2, hcols, hrows, hkb]
    rfl

/-- C5, for a one-pixel image, a file of 2047 bytes and a `ctime` text: the list of
four lines, and the texts that `main` draws on the input line `photo.jpg`. -/
theorem overlayLines_spec_witness :
    ("Thu Jan  1 00:00:00 1970".toList ++ ['\n']).length < SIZE_T_MOD ∧
    overlayLines (sampleWorld true (some ⟨2047, 0⟩) true) 1 1
        (getFileSizeKB (sampleWorld true (some ⟨2047, 0⟩) true) (getline samplePath))
        ("Thu Jan  1 00:00:00 1970".toList ++ ['\n']) (getGPSData samplePath) =
      some ["Resolution: ".toList ++ to_string 1 ++ "x".toList ++ to_string 1,
        "Size: ".toList ++
          to_string (static_cast_int (sampleWorld true (some ⟨2047, 0⟩) true)
            (getFileSizeKB (sampleWorld true (some ⟨2047, 0⟩) true) (getline samplePath))) ++
          " KB".toList,
        "Modified: ".toList ++ "Thu Jan  1 00:00:00 1970".toList,
        "Location: Unavailable".toList] ∧
    drawnTexts (main (sampleWorld true (some ⟨2047, 0⟩) true) samplePath) =
      ["Resolution: ".toList ++ to_string 1 ++ "x".toList ++ to_string 1,
        "Size: ".toList ++
          to_string (static_cast_int (sampleWorld true (some ⟨2047, 0⟩) true)
            (getFileSizeKB (sampleWorld true (some ⟨2047, 0⟩) true) (getline samplePath))) ++
          " KB".toList,
        "Modified: ".toList ++ "Thu Jan  1 00:00:00 1970".toList,
        "Location: Unavailable".toList,
        "<azlanio>".toList] :=
  ⟨by decide,
    (overlayLines_spec (sampleWorld true (some ⟨2047, 0⟩) true) 1 1
      (getFileSizeKB (sampleWorld true (some ⟨2047, 0⟩) true) (getline samplePath))
      "Thu Jan  1 00:00:00 1970".toList samplePath (by decide)).1,
    (overlayLines_spec (sampleWorld true (some ⟨2047, 0⟩) true) 1 1
      (getFileSizeKB (sampleWorld true (some ⟨2047, 0⟩) true) (getline samplePath))
      "Thu Jan  1 00:00:00 1970".toList samplePath (by decide)).2 samplePath
      rfl (by decide) rfl rfl rfl (by decide)⟩

/-- C6: when `stat` reports a size of `n` bytes with `0 ≤ n` and `n / 1024` within `int`,
the size line is `Size: ` then the decimal of `n / 1024` rounded down, then ` KB`: the
kilobyte value is truncated, not rounded to nearest; it is also the second line of the
overlay list. -/
theorem sizeLine_truncates (w : World) (filename : Str) (st : StatBuf)
    (hstat : w.stat filename = some st) (h0 : 0 ≤ st.st_size)
    (hfit : st.st_size / 1024 ≤ INT_MAX) :
    sizeLine w (getFileSizeKB w filename) =
      "Size: ".toList ++ to_string (st.st_size / 1024) ++ " KB".toList ∧
    (1024 * (st.st_size / 1024) ≤ st.st_size ∧
      st.st_size < 1024 * (st.st_size / 1024) + 1024) ∧
    (∀ width height modTime gpsData lines,
      overlayLines w width height (getFileSizeKB w filename) modTime gpsData = some lines →
        lines[1]? = some ("Size: ".toList ++ to_string (st.st_size / 1024) ++ " KB".toList)) := by
  have hline := sizeLine_of_stat w filename st hstat h0 hfit
  refine ⟨hline, by omega, ?_⟩
  intro width height modTime gpsData lines hl
  obtain ⟨modified, _, hol⟩ :=
    overlayLines_isSome w width height (getFileSizeKB w filename) modTime gpsData
  rw [hol] at hl
  cases hl
  simp [hline]

/-- C6, at 1023 bytes (`Size: 0 KB`) and at 2047 bytes (`Size: 1 KB`). -/
theorem sizeLine_truncates_witness :
    sizeLine (sampleWorld true (some ⟨1023, 0⟩) true)
        (getFileSizeKB (sampleWorld true (some ⟨1023, 0⟩) true) samplePath) =
      "Size: 0 KB".toList ∧
    sizeLine (sampleWorld true (some ⟨2047, 0⟩) true)
        (getFileSizeKB (sampleWorld true (some ⟨2047, 0⟩) true) samplePath) =
      "Size: 1 KB".toList :=
  ⟨(sizeLine_truncates (sampleWorld true (some ⟨1023, 0⟩) true) samplePath ⟨1023, 0⟩ rfl
      (by decide) (by decide)).1,
    (sizeLine_truncates (sampleWorld true (some ⟨2047, 0⟩) true) samplePath ⟨2047, 0⟩ rfl
      (by decide) (by decide)).1⟩

/-- C7: with `(tw, th)` the rendered size of the watermark text, `addTextOverlay` draws
the watermark last, at `(cols - tw - 10, rows - 10)` (in unbounded integers); whenever
`cols ≥ tw + 10` and `rows ≥ th + 10`, the text box `[x, x + tw] × [y - th, y]` lies
within the image and is 10 pixels away from the right and bottom edges. -/
theorem watermark_within_bounds (w : World) (image : Mat BGR) (lines : List Str)
    (tw th : Int)
    (hsize : w.getTextSize watermark FONT_HERSHEY_SIMPLEX 0.5 1 = ⟨tw, th⟩) :
    ∃ d, (addTextOverlay w image lines).2.getLast? = some d ∧
      d.text = "<azlanio>".toList ∧
      d.org = ⟨image.cols - tw - 10, image.rows - 10⟩ ∧
      (tw + 10 ≤ image.cols → th + 10 ≤ image.rows →
        0 ≤ d.org.x ∧ d.org.x + tw ≤ image.cols ∧ 0 ≤ d.org.y - th ∧ d.org.y ≤ image.rows ∧
        image.cols - (d.org.x + tw) = 10 ∧ image.rows - d.org.y = 10) := by
  obtain ⟨hrows, hcols⟩ := drawLines_dims w image 0 lines
  refine ⟨_, addTextOverlay_getLast w image lines, rfl, ?_, ?_⟩
  · simp [watermarkCall, watermarkPos, hsize, hrows, hcols]
  · intro hx hy
    simp only [watermarkCall, watermarkPos, hsize, hrows, hcols]
    omega

/-- C7, for an image of 100 x 100 pixels and a watermark text of 80 x 11 pixels: the
origin is `(10, 90)` and the box lies within the image. -/
theorem watermark_within_bounds_witness :
    ∃ d, (addTextOverlay (sampleWorld true none true) ⟨100, 100, []⟩
        ["Resolution: 100x100".toList]).2.getLast? = some d ∧
      d.org = ⟨10, 90⟩ ∧
      0 ≤ d.org.x ∧ d.org.x + 80 ≤ 100 ∧ 0 ≤ d.org.y - 11 ∧ d.org.y ≤ 100 := by
  obtain ⟨d, hlast, _, horg, hin⟩ :=
    watermark_within_bounds (sampleWorld true none true) ⟨100, 100, []⟩
      ["Resolution: 100x100".toList] 80 11 rfl
  obtain ⟨h1, h2, h3, h4, _, _⟩ := hin (by decide) (by decide)
  exact ⟨d, hlast, horg.trans (by decide), h1, h2, h3, h4⟩

/-- C8: the buffer that `main` hands to `addTextOverlay` has the dimensions of the decoded
image and every pixel of it has three equal channels, each the luminance of the decoded
pixel at that place; and every `putText` call of `addTextOverlay` uses `(255,255,255)`
or `(200,200,200)`, colours of three equal channels. -/
theorem displayable_channels_equal (w : World) (colorImage : Mat BGR) :
    (displayable w colorImage).rows = colorImage.rows ∧
    (displayable w colorImage).cols = colorImage.cols ∧
    (displayable w colorImage).data =
      colorImage.data.map (fun p => ⟨w.luminance p, w.luminance p, w.luminance p⟩) ∧
    (∀ px ∈ (displayable w colorImage).data, px.b = px.g ∧ px.g = px.r) ∧
    overlayColor = ⟨255, 255, 255⟩ ∧ watermarkColor = ⟨200, 200, 200⟩ ∧
    (∀ lines, ∀ d ∈ (addTextOverlay w (displayable w colorImage) lines).2,
      (d.color = ⟨255, 255, 255⟩ ∨ d.color = ⟨200, 200, 200⟩) ∧
        d.color.v0 = d.color.v1 ∧ d.color.v1 = d.color.v2) := by
  refine ⟨rfl, rfl, ?_, ?_, rfl, rfl, ?_⟩
  · simp [displayable, cvtColor_GRAY2BGR, cvtColor_BGR2GRAY]
  · intro px hpx
    simp only [displayable, cvtColor_GRAY2BGR, cvtColor_BGR2GRAY, List.map_map,
      List.mem_map] at hpx
    obtain ⟨p, _, rfl⟩ := hpx
    exact ⟨rfl, rfl⟩
  · intro lines d hd
    simp only [addTextOverlay, List.mem_append, List.mem_singleton] at hd
    rcases hd with hd | rfl
    · rw [drawLines_color w _ _ _ d hd]
      exact ⟨Or.inl rfl, rfl, rfl⟩
    · exact ⟨Or.inr rfl, rfl, rfl⟩

/-- C8, for the one-pixel image `(10, 20, 30)`, of luminance 20 in the sample world. -/
theorem displayable_channels_equal_witness :
    (displayable (sampleWorld true none true) onePixel).data = [⟨20, 20, 20⟩] ∧
    (⟨20, 20, 20⟩ : BGR).b = (⟨20, 20, 20⟩ : BGR).g ∧
    (⟨20, 20, 20⟩ : BGR).g = (⟨20, 20, 20⟩ : BGR).r :=
  ⟨(displayable_channels_equal (sampleWorld true none true) onePixel).2.2.1,
    (displayable_channels_equal (sampleWorld true none true) onePixel).2.2.2.1 ⟨20, 20, 20⟩
      (by decide)⟩

end BwConverter
